import Mathlib

/-!
Verification development for the weather-polygon dashboard
(React/TypeScript sources under src/). The definitions below are a
shallow embedding of the code in src/src/components/MapView.tsx and
src/src/components/TimelineSlider.tsx; JavaScript numbers are modelled
as rationals (for measurements and coordinates) or integers (for slot
indices), and fallible fetches as Option-valued oracles.
-/

namespace Dashboard

/-! ## Threshold rules (src/unnamed/part_000, type ThresholdRule) -/

/-- Comparison operator of a threshold rule: one of <, <=, >, >=, =. -/
inductive Op where
  | lt
  | le
  | gt
  | ge
  | eq
deriving DecidableEq, Repr

/-- A threshold rule: operator, numeric threshold, and the color returned
when the rule fires. -/
structure ThresholdRule where
  operator : Op
  value : ℚ
  color : String
deriving DecidableEq, Repr

/-- The default/neutral color returned by getPolygonColor when no weather
data is available or no rule matches (MapView.tsx lines 38 and 62). -/
def defaultColor : String := "#cccccc"

/-- One case of the switch in getPolygonColor (MapView.tsx lines 42-60):
whether a rule fires against the average. -/
def ruleMatches (avg : ℚ) (r : ThresholdRule) : Bool :=
  match r.operator with
  | Op.gt => decide (avg > r.value)
  | Op.lt => decide (avg < r.value)
  | Op.ge => decide (avg ≥ r.value)
  | Op.le => decide (avg ≤ r.value)
  | Op.eq => decide (avg = r.value)

/-- The for-loop of getPolygonColor: first rule that matches wins, with
the fallback color when the list is exhausted. -/
def applyRules (avg : ℚ) : List ThresholdRule → String
  | [] => defaultColor
  | r :: rest => if ruleMatches avg r then r.color else applyRules avg rest

/-- getPolygonColor (MapView.tsx lines 37-63): `none` models an undefined
weatherData argument; an empty or missing list short-circuits to the
default color, otherwise the rules are scanned against the mean. -/
def getPolygonColor (weatherData : Option (List ℚ)) (thresholds : List ThresholdRule) : String :=
  match weatherData with
  | none => defaultColor
  | some data =>
    if data.length = 0 then defaultColor
    else applyRules (data.sum / (data.length : ℚ)) thresholds

/-! ## Built-in temperature palette (MapView.tsx lines 90-94) -/

/-- getTemperatureColor: the fixed palette used for the rendered fill. -/
def getTemperatureColor (avgTemp : ℚ) : String :=
  if avgTemp < 10 then "#ff0000"
  else if avgTemp ≥ 10 ∧ avgTemp < 25 then "#0000ff"
  else "#00ff00"

/-! ## Centroid (MapView.tsx lines 66-74) -/

/-- calculateCentroid: sums all but the last coordinate and divides by
(length - 1); the last point is assumed to be the closing duplicate. -/
def calculateCentroid (coords : List (ℚ × ℚ)) : ℚ × ℚ :=
  let x := (coords.dropLast.map Prod.fst).sum
  let y := (coords.dropLast.map Prod.snd).sum
  let count : ℚ := (coords.length : ℚ) - 1
  (x / count, y / count)

/-! ## Sampling pipeline (MapView.tsx lines 17-34 and 151-211)

getTemperatureForCoordinate wraps the network fetch in a try/catch and
returns null on any failure, so it is modelled as an oracle
`fetch : ℚ → ℚ → Option ℚ` taking (lat, lon); it is a total function
and cannot surface an exception. -/

/-- The per-vertex optional samples: one slot per vertex of the ring with
its last point removed (uniqueCoords in handlePolygonDraw, line 152);
`none` where the fetch failed. Ring vertices are (lng, lat) pairs and the
fetch takes (lat, lon), matching the call on line 157. -/
def samples (fetch : ℚ → ℚ → Option ℚ) (coordinates : List (ℚ × ℚ)) : List (Option ℚ) :=
  coordinates.dropLast.map (fun p => fetch p.2 p.1)

/-- The temperatures array built by the loop on lines 156-161: failed
fetches contribute nothing, successful ones are appended in order. -/
def sampledTemperatures (fetch : ℚ → ℚ → Option ℚ) (coordinates : List (ℚ × ℚ)) : List ℚ :=
  coordinates.dropLast.filterMap (fun p => fetch p.2 p.1)

/-- Number of fetches issued by handlePolygonDraw: one per element of the
ring with its last point removed. -/
def numFetches (coordinates : List (ℚ × ℚ)) : ℕ :=
  coordinates.dropLast.length

/-- Mean of the present samples, `none` when none are present. This is the
aggregation step of handlePolygonDraw (lines 163-165 and the else branch
on lines 206-210). -/
def aggregate (s : List (Option ℚ)) : Option ℚ :=
  let present := s.reduceOption
  if present.length = 0 then none
  else some (present.sum / (present.length : ℚ))

/-- The derived state handlePolygonDraw publishes for a polygon on
success: the average temperature (also shown on the marker), the
centroid, and the rendered fill color. -/
structure DerivedState where
  avgTemp : ℚ
  centroid : ℚ × ℚ
  color : String
deriving DecidableEq, Repr

/-- handlePolygonDraw (MapView.tsx lines 151-211): drops the last ring
point, fetches a temperature per remaining vertex, and if at least one
fetch succeeded publishes the average, the centroid of the full ring and
the color from the built-in palette; otherwise publishes nothing. -/
def handlePolygonDraw (fetch : ℚ → ℚ → Option ℚ) (coordinates : List (ℚ × ℚ)) :
    Option DerivedState :=
  let temperatures := sampledTemperatures fetch coordinates
  if temperatures.length = 0 then none
  else
    let avgTemp := temperatures.sum / (temperatures.length : ℚ)
    some { avgTemp := avgTemp
           centroid := calculateCentroid coordinates
           color := getTemperatureColor avgTemp }

/-! ## Completion-order model of the polygon store

handlePolygonDraw is async: each invocation (from draw.create or
draw.update, lines 339-365) awaits its fetches and then unconditionally
overwrites the stored data, marker and rendered layer for its polygon id.
There is no generation counter, so the effect of several overlapping
invocations depends only on the order in which they resolve. A
`Completion` records one invocation; applying a list of completions in
resolution order yields the final store. -/

/-- One resolved invocation of handlePolygonDraw: the polygon id, the
ring it sampled, and the fetch oracle in effect during that pass. -/
structure Completion where
  id : String
  coordinates : List (ℚ × ℚ)
  fetch : ℚ → ℚ → Option ℚ

/-- The per-polygon derived-state store (polygonData, the marker map and
the rendered layers, keyed by polygon id). -/
def Store : Type := String → Option DerivedState

/-- The empty store. -/
def Store.empty : Store := fun _ => none

/-- Effect of one resolved sampling pass: when it produced data it
overwrites the entry for its id unconditionally (lines 168-204); when all
fetches failed it leaves the store alone (lines 206-210). -/
def applyCompletion (store : Store) (c : Completion) : Store :=
  match handlePolygonDraw c.fetch c.coordinates with
  | some d => fun i => if i = c.id then some d else store i
  | none => store

/-- Apply a list of sampling-pass completions in resolution order. -/
def runCompletions (store : Store) (cs : List Completion) : Store :=
  cs.foldl applyCompletion store

/-! ## Timeline slider (src/src/components/TimelineSlider.tsx)

Slot indices are JavaScript numbers holding integers; they are modelled
as ℤ. The slider spans totalHours = 30 * 24 = 720 hourly slots. -/

/-- totalHours (line 52): the number of hourly slots. -/
def totalHours : ℤ := 720

/-- todayIndex (line 53): local midnight of the start day, 15 * 24. -/
def todayIndex : ℤ := 15 * 24

/-- The active mode, single handle or range (line 20). -/
inductive Mode where
  | single
  | range
deriving DecidableEq, Repr

/-- The drag-bound handle recorded in dragState.type (lines 15-18). -/
inductive DragType where
  | hSingle
  | hStart
  | hEnd
deriving DecidableEq, Repr

/-- The slider state: active mode, the single-mode handle, the two
range-mode handles and the current drag binding (lines 56-66). -/
structure TimelineState where
  mode : Mode
  singleHandle : ℤ
  rangeStart : ℤ
  rangeEnd : ℤ
  dragState : Option DragType
deriving DecidableEq, Repr

/-- handleMouseDown (lines 79-82): bind the drag to a handle. -/
def handleMouseDown (s : TimelineState) (t : DragType) : TimelineState :=
  { s with dragState := some t }

/-- handleMouseUp (lines 100-102): release the drag. -/
def handleMouseUp (s : TimelineState) : TimelineState :=
  { s with dragState := none }

/-- handleMouseMove (lines 84-98): no-op without a drag; in single mode
the single handle is clamped to [0, totalHours-1]; in range mode the
bound range handle is clamped against its partner. -/
def handleMouseMove (s : TimelineState) (newValue : ℤ) : TimelineState :=
  match s.dragState with
  | none => s
  | some t =>
    if s.mode = Mode.single then
      { s with singleHandle := max 0 (min (totalHours - 1) newValue) }
    else
      match t with
      | DragType.hStart => { s with rangeStart := max 0 (min (s.rangeEnd - 1) newValue) }
      | DragType.hEnd => { s with rangeEnd := max (s.rangeStart + 1) (min (totalHours - 1) newValue) }
      | DragType.hSingle => s

/-- handleSliderClick (lines 132-149): ignored during a drag; in single
mode the handle is set to the clicked index directly; in range mode the
handle strictly closer to the click moves (the end handle moves when the
two distances are equal), with the same clamping as dragging. -/
def handleSliderClick (s : TimelineState) (newValue : ℤ) : TimelineState :=
  if s.dragState.isSome then s
  else if s.mode = Mode.single then { s with singleHandle := newValue }
  else
    let distToStart := |newValue - s.rangeStart|
    let distToEnd := |newValue - s.rangeEnd|
    if distToStart < distToEnd then
      { s with rangeStart := max 0 (min (s.rangeEnd - 1) newValue) }
    else
      { s with rangeEnd := max (s.rangeStart + 1) (min (totalHours - 1) newValue) }

/-- goToNow (lines 171-179): jump to the slot of the current local hour;
in range mode the window becomes the 24 slots starting there. -/
def goToNow (s : TimelineState) (hour : ℤ) : TimelineState :=
  let now := todayIndex + hour
  if s.mode = Mode.single then { s with singleHandle := now }
  else { s with rangeStart := now, rangeEnd := now + 24 }

/-- goToToday (lines 181-188): jump to todayIndex; in range mode the
window becomes the 24 slots starting at todayIndex. -/
def goToToday (s : TimelineState) : TimelineState :=
  if s.mode = Mode.single then { s with singleHandle := todayIndex }
  else { s with rangeStart := todayIndex, rangeEnd := todayIndex + 24 }

/-- setMode (the two mode buttons, lines 195-212): only the mode field
changes. -/
def setMode (s : TimelineState) (m : Mode) : TimelineState :=
  { s with mode := m }

/-- One user-driven event on the slider. goToNow carries the current
local hour read from the clock at invocation time. -/
inductive TimelineEvent where
  | mouseDown (t : DragType)
  | mouseMove (v : ℤ)
  | mouseUp
  | click (v : ℤ)
  | now (hour : ℤ)
  | today
  | switchMode (m : Mode)

/-- Dispatch one event to the corresponding handler. -/
def step (s : TimelineState) : TimelineEvent → TimelineState
  | TimelineEvent.mouseDown t => handleMouseDown s t
  | TimelineEvent.mouseMove v => handleMouseMove s v
  | TimelineEvent.mouseUp => handleMouseUp s
  | TimelineEvent.click v => handleSliderClick s v
  | TimelineEvent.now hour => goToNow s hour
  | TimelineEvent.today => goToToday s
  | TimelineEvent.switchMode m => setMode s m

/-- Run a sequence of slider events from a state. -/
def run (s : TimelineState) (es : List TimelineEvent) : TimelineState :=
  es.foldl step s

/-- Well-formedness of an event input: pointer positions come from
getMousePosition (lines 72-77), which clamps the percent to [0, 100] and
rounds into [0, totalHours-1]; the local hour is in [0, 23]. -/
def WFEvent : TimelineEvent → Prop
  | TimelineEvent.mouseMove v => 0 ≤ v ∧ v ≤ totalHours - 1
  | TimelineEvent.click v => 0 ≤ v ∧ v ≤ totalHours - 1
  | TimelineEvent.now hour => 0 ≤ hour ∧ hour ≤ 23
  | _ => True

instance : DecidablePred WFEvent := by
  intro e
  cases e <;> simp [WFEvent] <;> infer_instance

/-- The state invariant: both range handles and the single handle lie in
the slot window and the range is nonempty (start strictly below end). -/
def Inv (s : TimelineState) : Prop :=
  0 ≤ s.rangeStart ∧ s.rangeStart < s.rangeEnd ∧ s.rangeEnd ≤ totalHours - 1 ∧
    0 ≤ s.singleHandle ∧ s.singleHandle ≤ totalHours - 1

instance : DecidablePred Inv := by
  intro s
  simp [Inv]
  infer_instance

/-- The initial state (lines 56-63): single mode, single handle at the
current hour of the start day, range window of 24 slots from todayIndex. -/
def initState (hour : ℤ) : TimelineState :=
  { mode := Mode.single
    singleHandle := todayIndex + hour
    rangeStart := todayIndex
    rangeEnd := todayIndex + 24
    dragState := none }

/-! ## Timeline data and emission (lines 29-51 and 116-130)

generateTimelineData builds 30 days of 24 hourly slots starting at local
midnight 15 days before now. Times are modelled in hours; t0 is the
timestamp of that starting midnight. -/

/-- One entry of the timelineData array: its index and its timestamp in
hours. -/
structure TimelineDataPoint where
  index : ℕ
  time : ℤ
deriving DecidableEq, Repr

/-- generateTimelineData (lines 29-49): slot (day, hour) has index
day * 24 + hour and timestamp t0 + day * 24 + hour. -/
def generateTimelineData (t0 : ℤ) : List TimelineDataPoint :=
  (List.range 30).flatMap (fun day =>
    (List.range 24).map (fun hour =>
      { index := day * 24 + hour, time := t0 + (day * 24 + hour : ℕ) }))

/-- The notification computed by the useEffect on lines 116-130: in
single mode the window is the handle slot and one hour more; in range
mode it runs from the start slot to the end slot. `none` models an
out-of-bounds array access. -/
def emitWindow (t0 : ℤ) (s : TimelineState) : Option (ℤ × ℤ × Mode) :=
  if s.mode = Mode.single then
    (generateTimelineData t0).get? s.singleHandle.toNat |>.map
      (fun p => (p.time, p.time + 1, s.mode))
  else
    match (generateTimelineData t0).get? s.rangeStart.toNat,
        (generateTimelineData t0).get? s.rangeEnd.toNat with
    | some a, some b => some (a.time, b.time, s.mode)
    | _, _ => none

/-! ## Concrete inputs used in the statements below -/

/-- The rule list of the classification example, encoding
[<10 → A, >=10 and <25 → B, >=25 → C] in the single-operator rule type:
with first-match-wins evaluation, the second rule <25 fires exactly on
[10, 25) because the first rule already captured everything below 10. -/
def exampleRules : List ThresholdRule :=
  [{ operator := Op.lt, value := 10, color := "A" },
   { operator := Op.lt, value := 25, color := "B" },
   { operator := Op.ge, value := 25, color := "C" }]

/-- Modelled from the spec (section 8): the arithmetic mean of the
distinct vertices of a ring, per coordinate, over the deduplicated
vertex list. Used to compare calculateCentroid with the specified
centroid. -/
def distinctVertexMean (coords : List (ℚ × ℚ)) : ℚ × ℚ :=
  ((coords.dedup.map Prod.fst).sum / (coords.dedup.length : ℚ),
   (coords.dedup.map Prod.snd).sum / (coords.dedup.length : ℚ))

/-- An open ring of three distinct vertices, without the closing
duplicate. -/
def openTriangle : List (ℚ × ℚ) := [(0, 0), (3, 0), (0, 3)]

/-- A degenerate closed ring with only two distinct vertices. -/
def degenerateRing : List (ℚ × ℚ) := [(0, 0), (1, 1), (0, 0)]

/-- A fetch oracle that answers 5 degrees west of longitude 5 and 30
degrees east of it, so the two rings below sample different values. -/
def fetchByLng : ℚ → ℚ → Option ℚ := fun _ lng => some (if lng < 5 then 5 else 30)

/-- The first geometry of polygon P in the staleness scenario. -/
def ringOne : List (ℚ × ℚ) := [(0, 0), (1, 0), (0, 1), (0, 0)]

/-- The second geometry of polygon P, supplied by update(P, ring2). -/
def ringTwo : List (ℚ × ℚ) := [(10, 10), (11, 10), (10, 11), (10, 10)]

/-- The fill color handlePolygonDraw renders for a polygon, as a
function of the threshold configuration in scope (the configByPolygon
prop of the component), the fetch oracle and the ring; the handler never
reads the configuration, it is bound in the component closure only. -/
def renderedFillColor (thresholds : List ThresholdRule) (fetch : ℚ → ℚ → Option ℚ)
    (coordinates : List (ℚ × ℚ)) : Option String :=
  (handlePolygonDraw fetch coordinates).map DerivedState.color

/-- A range-mode slider state where a click at 15 is equally far from
both handles. -/
def tieState : TimelineState :=
  { mode := Mode.range, singleHandle := 0, rangeStart := 10, rangeEnd := 20, dragState := none }

/-! ## Helper lemmas -/

/-- The first-match loop of getPolygonColor agrees with List.find?. -/
lemma applyRules_eq_find (avg : ℚ) (rules : List ThresholdRule) :
    applyRules avg rules =
      ((rules.find? (fun r => ruleMatches avg r)).map ThresholdRule.color).getD defaultColor := by
  induction rules with
  | nil => rfl
  | cons r rest ih =>
    by_cases h : ruleMatches avg r
    · simp [applyRules, List.find?, h]
    · simp only [applyRules, List.find?, h] at *
      simpa [h] using ih

/-- The temperatures array is the reduction of the per-vertex optional
samples: each vertex contributes exactly its own optional value. -/
lemma sampledTemperatures_eq_reduceOption (fetch : ℚ → ℚ → Option ℚ)
    (coordinates : List (ℚ × ℚ)) :
    sampledTemperatures fetch coordinates = (samples fetch coordinates).reduceOption := by
  show List.filterMap (fun p => fetch p.2 p.1) coordinates.dropLast =
    List.reduceOption (List.map (fun p => fetch p.2 p.1) coordinates.dropLast)
  rw [List.reduceOption, List.filterMap_map]
  rfl

/-- The average published by handlePolygonDraw is exactly the aggregate
of the per-vertex optional samples. -/
lemma handlePolygonDraw_map_avg (fetch : ℚ → ℚ → Option ℚ) (coords : List (ℚ × ℚ)) :
    (handlePolygonDraw fetch coords).map DerivedState.avgTemp =
      aggregate (samples fetch coords) := by
  rw [handlePolygonDraw, aggregate, ← sampledTemperatures_eq_reduceOption]
  by_cases h : sampledTemperatures fetch coords = []
  · simp [h]
  · simp [h]

/-! ## Claim theorems -/

/-- C4: for every aggregate and ordered rule list, classification
returns the color of the first rule in list order whose relational
predicate holds against the aggregate; an absent aggregate yields the
neutral default color without consulting the rules, as does an exhausted
rule list; and under the rules [<10 → A, >=10 and <25 → B, >=25 → C]
the values 9.999, 10.0, 24.999 and 25.0 classify to A, B, B and C. -/
theorem classify_first_match :
    (∀ rules rules' : List ThresholdRule,
      getPolygonColor none rules = defaultColor ∧
      getPolygonColor (some []) rules = defaultColor ∧
      getPolygonColor none rules = getPolygonColor none rules') ∧
    (∀ (data : List ℚ) (rules : List ThresholdRule), data.length ≠ 0 →
      getPolygonColor (some data) rules =
        (((rules.find? (fun r => ruleMatches (data.sum / (data.length : ℚ)) r)).map
          ThresholdRule.color).getD defaultColor)) ∧
    (getPolygonColor (some [9999/1000]) exampleRules = "A" ∧
      getPolygonColor (some [10]) exampleRules = "B" ∧
      getPolygonColor (some [24999/1000]) exampleRules = "B" ∧
      getPolygonColor (some [25]) exampleRules = "C") := by
  refine ⟨fun rules rules' => ⟨rfl, rfl, rfl⟩, fun data rules h => ?_, ?_, ?_, ?_, ?_⟩
  · simp [getPolygonColor, h, applyRules_eq_find]
  all_goals
    simp [getPolygonColor, exampleRules, applyRules, ruleMatches]
    norm_num

/-- Witness for classify_first_match: an exhausted rule list on a
present aggregate returns the neutral default. -/
theorem classify_first_match_witness :
    getPolygonColor (some [(12 : ℚ)]) [] = "#cccccc" := by
  have h := classify_first_match.2.1 [(12 : ℚ)] [] (by norm_num)
  simpa [defaultColor] using h

/-- C6 counterexample: on an open ring of three distinct vertices
(closing duplicate not present) calculateCentroid drops the last real
vertex, so it computes (3/2, 0) instead of the distinct-vertex mean
(1, 1); the centroid is therefore not independent of whether the closing
duplicate is present. -/
theorem centroid_counterexample :
    openTriangle.dedup.length = 3 ∧
    distinctVertexMean openTriangle = (1, 1) ∧
    calculateCentroid openTriangle = (3/2, 0) ∧
    calculateCentroid openTriangle ≠ distinctVertexMean openTriangle := by
  have hd : openTriangle.dedup = openTriangle := by decide
  have h1 : distinctVertexMean openTriangle = (1, 1) := by
    rw [distinctVertexMean, hd]
    simp only [openTriangle, List.map_cons, List.map_nil, List.sum_cons, List.sum_nil,
      List.length_cons, List.length_nil, Prod.mk.injEq]
    norm_num
  have h2 : calculateCentroid openTriangle = (3/2, 0) := by
    simp only [calculateCentroid, openTriangle, List.dropLast_cons₂, List.dropLast_single,
      List.map_cons, List.map_nil, List.sum_cons, List.sum_nil, List.length_cons,
      List.length_nil, Prod.mk.injEq]
    norm_num
  refine ⟨by rw [hd]; rfl, h1, h2, ?_⟩
  rw [h1, h2]
  intro h
  have := congrArg Prod.snd h
  norm_num at this

/-- C6 amended: for a closed ring (the closing duplicate of the first
vertex present) whose distinct vertices number at least 3,
calculateCentroid equals the per-coordinate arithmetic mean of exactly
the distinct vertices; without the closing duplicate the last vertex is
excluded from the mean (see the counterexample). -/
theorem centroid_closed_ring (v0 : ℚ × ℚ) (t : List (ℚ × ℚ))
    (hnd : (v0 :: t).Nodup) (hlen : 3 ≤ (v0 :: t).length) :
    calculateCentroid ((v0 :: t) ++ [v0]) =
      (((v0 :: t).map Prod.fst).sum / (((v0 :: t).length : ℚ)),
       ((v0 :: t).map Prod.snd).sum / (((v0 :: t).length : ℚ))) ∧
    calculateCentroid ((v0 :: t) ++ [v0]) = distinctVertexMean ((v0 :: t) ++ [v0]) := by
  have hmain : calculateCentroid ((v0 :: t) ++ [v0]) =
      (((v0 :: t).map Prod.fst).sum / (((v0 :: t).length : ℚ)),
       ((v0 :: t).map Prod.snd).sum / (((v0 :: t).length : ℚ))) := by
    simp only [calculateCentroid, List.dropLast_concat, List.length_append,
      List.length_cons, List.length_nil, Prod.mk.injEq]
    constructor <;> · push_cast; ring_nf
  refine ⟨hmain, hmain.trans ?_⟩
  have hv0 : v0 ∈ t ++ [v0] := by simp
  have hnodup : (t ++ [v0]).Nodup := by
    have hperm : (t ++ [v0]).Perm (v0 :: t) := List.perm_append_singleton v0 t
    exact hperm.nodup_iff.mpr hnd
  have hdedup : ((v0 :: t) ++ [v0]).dedup = t ++ [v0] := by
    rw [List.cons_append, List.dedup_cons_of_mem hv0, hnodup.dedup]
  have hperm : (t ++ [v0]).Perm (v0 :: t) := List.perm_append_singleton v0 t
  rw [distinctVertexMean, hdedup]
  rw [(hperm.map Prod.fst).sum_eq, (hperm.map Prod.snd).sum_eq, hperm.length_eq]

/-- Witness for centroid_closed_ring at the closed unit triangle. -/
theorem centroid_closed_ring_witness :
    calculateCentroid [((0 : ℚ), (0 : ℚ)), (3, 0), (0, 3), (0, 0)] = (1, 1) := by
  have h := (centroid_closed_ring ((0 : ℚ), (0 : ℚ)) [(3, 0), (0, 3)]
    (by decide) (by decide)).1
  simpa using h.trans (by norm_num)

/-- C7 counterexample: a closed ring with only two distinct vertices is
not rejected: the draw.create path runs handlePolygonDraw unchanged, two
fetches are issued, and with a successful fetch the derived state is
created. There is no InvalidGeometry failure anywhere in the code. -/
theorem register_no_validation_counterexample :
    degenerateRing.dropLast.dedup.length = 2 ∧
    numFetches degenerateRing = 2 ∧
    handlePolygonDraw (fun _ _ => some 20) degenerateRing =
      some { avgTemp := 20, centroid := (1/2, 1/2), color := "#0000ff" } := by
  refine ⟨by decide, by decide, ?_⟩
  have htemps : sampledTemperatures (fun _ _ => some 20) degenerateRing = [20, 20] := by rfl
  rw [handlePolygonDraw, htemps]
  norm_num [calculateCentroid, degenerateRing, getTemperatureColor,
    List.dropLast_cons₂, List.dropLast_single]

/-- C7 amended: create and update events perform no geometry validation;
even a ring with fewer than 3 distinct vertices (after removing the
closing duplicate) triggers sampling — one fetch per vertex of the ring
minus its last point — and derived state is created whenever at least
one fetch succeeds. -/
theorem register_no_validation (fetch : ℚ → ℚ → Option ℚ) (coords : List (ℚ × ℚ))
    (hdeg : coords.dropLast.dedup.length < 3)
    (hsucc : sampledTemperatures fetch coords ≠ []) :
    0 < numFetches coords ∧ (handlePolygonDraw fetch coords).isSome = true := by
  constructor
  · rcases hl : coords.dropLast with _ | ⟨a, l⟩
    · rw [sampledTemperatures, hl] at hsucc
      simp at hsucc
    · simp [numFetches, hl]
  · rw [handlePolygonDraw]
    have : sampledTemperatures fetch coords ≠ [] := hsucc
    simp only [List.length_eq_zero]
    rw [if_neg this]
    rfl

/-- Witness for register_no_validation at the two-vertex ring. -/
theorem register_no_validation_witness :
    0 < numFetches degenerateRing ∧
      (handlePolygonDraw (fun _ _ => some 20) degenerateRing).isSome = true :=
  register_no_validation (fun _ _ => some 20) degenerateRing (by decide) (by decide)

/-- C1 counterexample: polygon P is updated to ringTwo, whose sampling
pass resolves first (first completion); the stale pass for the old
geometry ringOne resolves afterwards (second completion). Because
applyCompletion performs no generation check, the final state of P is
the stale ringOne result (average 5, red) and not the ringTwo result
(average 30, green): the stale pass does overwrite the newer state. -/
theorem stale_pass_overwrites :
    handlePolygonDraw fetchByLng ringTwo =
      some { avgTemp := 30, centroid := (31/3, 31/3), color := "#00ff00" } ∧
    runCompletions Store.empty
        [{ id := "P", coordinates := ringTwo, fetch := fetchByLng },
         { id := "P", coordinates := ringOne, fetch := fetchByLng }] "P" =
      some { avgTemp := 5, centroid := (1/3, 1/3), color := "#ff0000" } := by
  have h2 : handlePolygonDraw fetchByLng ringTwo =
      some { avgTemp := 30, centroid := (31/3, 31/3), color := "#00ff00" } := by
    have htemps : sampledTemperatures fetchByLng ringTwo = [30, 30, 30] := by
      simp only [sampledTemperatures, ringTwo, fetchByLng, List.dropLast_cons₂,
        List.dropLast_single, List.filterMap_cons, List.filterMap_nil]
      norm_num
    rw [handlePolygonDraw, htemps]
    norm_num [calculateCentroid, ringTwo, getTemperatureColor,
      List.dropLast_cons₂, List.dropLast_single]
  have h1 : handlePolygonDraw fetchByLng ringOne =
      some { avgTemp := 5, centroid := (1/3, 1/3), color := "#ff0000" } := by
    have htemps : sampledTemperatures fetchByLng ringOne = [5, 5, 5] := by
      simp only [sampledTemperatures, ringOne, fetchByLng, List.dropLast_cons₂,
        List.dropLast_single, List.filterMap_cons, List.filterMap_nil]
      norm_num
    rw [handlePolygonDraw, htemps]
    norm_num [calculateCentroid, ringOne, getTemperatureColor,
      List.dropLast_cons₂, List.dropLast_single]
  refine ⟨h2, ?_⟩
  simp [runCompletions, applyCompletion, h1, h2]

/-- C1 amended: the code has no generation counter; the derived state of
a polygon is simply that of the last sampling pass for its id that
resolved with data, so an older in-flight pass resolving after a newer
update overwrites the newer state. Formally, the pass resolving last
wins unconditionally whenever it produced data. -/
theorem last_resolved_pass_wins (store : Store) (cs : List Completion) (c : Completion)
    (d : DerivedState) (h : handlePolygonDraw c.fetch c.coordinates = some d) :
    runCompletions store (cs ++ [c]) c.id = some d := by
  rw [runCompletions, List.foldl_append]
  simp [applyCompletion, h]

/-- Witness for last_resolved_pass_wins: the stale ringOne pass, when it
resolves last, determines the final state of P. -/
theorem last_resolved_pass_wins_witness :
    runCompletions Store.empty
        [{ id := "P", coordinates := ringTwo, fetch := fetchByLng },
         { id := "P", coordinates := ringOne, fetch := fetchByLng }] "P" =
      some { avgTemp := 5, centroid := (1/3, 1/3), color := "#ff0000" } := by
  have h1 : handlePolygonDraw fetchByLng ringOne =
      some { avgTemp := 5, centroid := (1/3, 1/3), color := "#ff0000" } := by
    have htemps : sampledTemperatures fetchByLng ringOne = [5, 5, 5] := by
      simp only [sampledTemperatures, ringOne, fetchByLng, List.dropLast_cons₂,
        List.dropLast_single, List.filterMap_cons, List.filterMap_nil]
      norm_num
    rw [handlePolygonDraw, htemps]
    norm_num [calculateCentroid, ringOne, getTemperatureColor,
      List.dropLast_cons₂, List.dropLast_single]
  exact last_resolved_pass_wins Store.empty
    [{ id := "P", coordinates := ringTwo, fetch := fetchByLng }]
    { id := "P", coordinates := ringOne, fetch := fetchByLng }
    { avgTemp := 5, centroid := (1/3, 1/3), color := "#ff0000" } h1

/-- C5: for a closed ring (closing duplicate of the first vertex at the
end, the remaining vertices pairwise distinct) the handler issues one
fetch per distinct vertex; each vertex has its own sample slot filled
only by its own fetch, so one failing fetch yields absent for that
vertex alone while the others still contribute; the published average is
the mean of the present samples; [some 20, none, some 30] aggregates to
25 and an all-absent sample set aggregates to absent, which the
classifier maps to the neutral default color. -/
theorem sampler_per_vertex (fetch : ℚ → ℚ → Option ℚ) (v0 : ℚ × ℚ) (t : List (ℚ × ℚ))
    (hnd : (v0 :: t).Nodup) :
    numFetches ((v0 :: t) ++ [v0]) = (v0 :: t).length ∧
    samples fetch ((v0 :: t) ++ [v0]) = (v0 :: t).map (fun p => fetch p.2 p.1) ∧
    (∀ (g : ℚ → ℚ → Option ℚ) (w : ℚ × ℚ),
      (∀ p : ℚ × ℚ, p ≠ w → g p.2 p.1 = fetch p.2 p.1) → g w.2 w.1 = none →
      samples g ((v0 :: t) ++ [v0]) =
        (v0 :: t).map (fun p => if p = w then none else fetch p.2 p.1)) ∧
    (handlePolygonDraw fetch ((v0 :: t) ++ [v0])).map DerivedState.avgTemp =
      aggregate (samples fetch ((v0 :: t) ++ [v0])) ∧
    aggregate [some 20, none, some 30] = some 25 ∧
    aggregate [none, none] = none ∧
    (∀ rules : List ThresholdRule, getPolygonColor none rules = defaultColor) := by
  refine ⟨?_, ?_, ?_, ?_, ?_, ?_, fun rules => rfl⟩
  · simp [numFetches]
  · show (((v0 :: t) ++ [v0]).dropLast).map (fun p => fetch p.2 p.1) =
      (v0 :: t).map (fun p => fetch p.2 p.1)
    rw [List.dropLast_concat]
  · intro g w hag hw
    simp only [samples, List.dropLast_concat]
    refine List.map_congr_left (fun p _ => ?_)
    by_cases hp : p = w
    · subst hp
      simp [hw]
    · simp [hp, hag p hp]
  · exact handlePolygonDraw_map_avg fetch ((v0 :: t) ++ [v0])
  · rw [aggregate]
    norm_num
  · rfl

/-- Witness for sampler_per_vertex at the closed unit triangle: three
distinct vertices, three fetches. -/
theorem sampler_per_vertex_witness :
    numFetches ([((0 : ℚ), (0 : ℚ)), (1, 0), (0, 1)] ++ [(0, 0)]) = 3 := by
  have h := (sampler_per_vertex (fun _ _ => some 20) ((0 : ℚ), (0 : ℚ))
    [(1, 0), (0, 1)] (by decide)).1
  simpa using h

/-- C10: the rendered fill color never depends on the configured
threshold rules — two runs differing only in the ThresholdRule lists
render the same color — and whenever sampling yields at least one
present value the color is exactly the built-in palette applied to the
average: below 10 red #ff0000, in [10, 25) blue #0000ff, at or above 25
green #00ff00. -/
theorem fill_color_ignores_thresholds :
    (∀ (th1 th2 : List ThresholdRule) (fetch : ℚ → ℚ → Option ℚ)
        (coords : List (ℚ × ℚ)),
      renderedFillColor th1 fetch coords = renderedFillColor th2 fetch coords) ∧
    (∀ (fetch : ℚ → ℚ → Option ℚ) (coords : List (ℚ × ℚ)),
      sampledTemperatures fetch coords ≠ [] →
      ∃ d : DerivedState, handlePolygonDraw fetch coords = some d ∧
        d.color = getTemperatureColor d.avgTemp) ∧
    (∀ a : ℚ,
      (a < 10 → getTemperatureColor a = "#ff0000") ∧
      (10 ≤ a → a < 25 → getTemperatureColor a = "#0000ff") ∧
      (25 ≤ a → getTemperatureColor a = "#00ff00")) := by
  refine ⟨fun th1 th2 fetch coords => rfl, fun fetch coords h => ?_, fun a => ?_⟩
  · rw [handlePolygonDraw]
    have hlen : ¬ (sampledTemperatures fetch coords).length = 0 := by
      simp only [ne_eq, List.length_eq_zero]
      exact h
    rw [if_neg hlen]
    exact ⟨_, rfl, rfl⟩
  · refine ⟨fun h1 => by simp [getTemperatureColor, h1], fun h1 h2 => ?_, fun h1 => ?_⟩
    · rw [getTemperatureColor, if_neg (by linarith), if_pos ⟨h1, h2⟩]
    · rw [getTemperatureColor, if_neg (by linarith), if_neg (by
        intro hc
        linarith [hc.2])]

/-- Witness for fill_color_ignores_thresholds: a run with one successful
sample publishes the palette color of its average. -/
theorem fill_color_ignores_thresholds_witness :
    ∃ d : DerivedState,
      handlePolygonDraw (fun _ _ => some 20) degenerateRing = some d ∧
        d.color = getTemperatureColor d.avgTemp :=
  fill_color_ignores_thresholds.2.1 (fun _ _ => some 20) degenerateRing (by decide)

/-- Every slider event preserves the state invariant. -/
lemma step_preserves_inv (s : TimelineState) (e : TimelineEvent)
    (hs : Inv s) (he : WFEvent e) : Inv (step s e) := by
  obtain ⟨h1, h2, h3, h4, h5⟩ := hs
  cases e with
  | mouseDown t =>
    simpa [step, handleMouseDown, Inv] using ⟨h1, h2, h3, h4, h5⟩
  | mouseUp =>
    simpa [step, handleMouseUp, Inv] using ⟨h1, h2, h3, h4, h5⟩
  | switchMode m =>
    simpa [step, setMode, Inv] using ⟨h1, h2, h3, h4, h5⟩
  | mouseMove v =>
    rcases hd : s.dragState with _ | t
    · simpa [step, handleMouseMove, hd, Inv] using ⟨h1, h2, h3, h4, h5⟩
    · rcases t <;> rcases hm : s.mode <;>
        simp [step, handleMouseMove, hd, hm, Inv, totalHours] at * <;> omega
  | click v =>
    obtain ⟨hv1, hv2⟩ : 0 ≤ v ∧ v ≤ totalHours - 1 := he
    by_cases hd : s.dragState.isSome
    · simpa [step, handleSliderClick, hd, Inv] using ⟨h1, h2, h3, h4, h5⟩
    · rcases hm : s.mode <;>
        simp [step, handleSliderClick, hd, hm, Inv, totalHours] at * <;>
        first
        | omega
        | (split_ifs <;> (try simp) <;> omega)
  | now hour =>
    obtain ⟨hh1, hh2⟩ : 0 ≤ hour ∧ hour ≤ 23 := he
    rcases hm : s.mode <;>
      simp [step, goToNow, hm, Inv, totalHours, todayIndex] at * <;> omega
  | today =>
    rcases hm : s.mode <;>
      simp [step, goToToday, hm, Inv, totalHours, todayIndex] at * <;> omega

/-- C2: the slider holds N = 720 slots; the initial state satisfies the
invariant; every committed update (drag move, click, Now/Today shortcut
and mode switch) preserves 0 <= start < end <= N-1, hence start < end
holds after every update of any event sequence; and the clamp policy is
as specified — moving start lands in [0, end-1], moving end lands in
[start+1, N-1], and the single handle lands in [0, N-1]. -/
theorem range_invariant :
    totalHours = 720 ∧
    (∀ h : ℤ, 0 ≤ h → h ≤ 23 → Inv (initState h)) ∧
    (∀ (s : TimelineState) (e : TimelineEvent), Inv s → WFEvent e → Inv (step s e)) ∧
    (∀ (s : TimelineState) (es : List TimelineEvent), Inv s →
      (∀ e ∈ es, WFEvent e) → Inv (run s es)) ∧
    (∀ (s : TimelineState) (v : ℤ), Inv s → s.mode = Mode.range →
      s.dragState = some DragType.hStart →
      0 ≤ (handleMouseMove s v).rangeStart ∧
        (handleMouseMove s v).rangeStart ≤ s.rangeEnd - 1 ∧
        (handleMouseMove s v).rangeStart < (handleMouseMove s v).rangeEnd) ∧
    (∀ (s : TimelineState) (v : ℤ), Inv s → s.mode = Mode.range →
      s.dragState = some DragType.hEnd →
      s.rangeStart + 1 ≤ (handleMouseMove s v).rangeEnd ∧
        (handleMouseMove s v).rangeEnd ≤ totalHours - 1 ∧
        (handleMouseMove s v).rangeStart < (handleMouseMove s v).rangeEnd) ∧
    (∀ (s : TimelineState) (v : ℤ), s.mode = Mode.single → s.dragState.isSome = true →
      0 ≤ (handleMouseMove s v).singleHandle ∧
        (handleMouseMove s v).singleHandle ≤ totalHours - 1) := by
  refine ⟨rfl, ?_, step_preserves_inv, ?_, ?_, ?_, ?_⟩
  · intro h hh1 hh2
    simp [Inv, initState, todayIndex, totalHours]
    omega
  · intro s es hs hes
    induction es generalizing s with
    | nil => simpa [run] using hs
    | cons e rest ih =>
      have h1 : Inv (step s e) := step_preserves_inv s e hs (hes e (by simp))
      have h2 : ∀ e' ∈ rest, WFEvent e' := fun e' he' => hes e' (by simp [he'])
      simpa [run] using ih (step s e) h1 h2
  · intro s v hs hm hd
    obtain ⟨h1, h2, h3, h4, h5⟩ := hs
    simp [handleMouseMove, hd, hm, totalHours] at *
    omega
  · intro s v hs hm hd
    obtain ⟨h1, h2, h3, h4, h5⟩ := hs
    simp [handleMouseMove, hd, hm, totalHours] at *
    omega
  · intro s v hm hd
    rcases hds : s.dragState with _ | t
    · rw [hds] at hd
      simp at hd
    · have hh : (handleMouseMove s v).singleHandle = max 0 (min (totalHours - 1) v) := by
        simp [handleMouseMove, hds, hm]
      rw [hh]
      simp only [totalHours]
      omega

/-- Witness for range_invariant: a drag and click sequence from the
initial state keeps the invariant. -/
theorem range_invariant_witness :
    Inv (run (initState 5)
      [TimelineEvent.switchMode Mode.range, TimelineEvent.mouseDown DragType.hStart,
       TimelineEvent.mouseMove 100, TimelineEvent.mouseUp, TimelineEvent.click 700,
       TimelineEvent.now 12, TimelineEvent.today]) :=
  range_invariant.2.2.2.1 (initState 5)
    [TimelineEvent.switchMode Mode.range, TimelineEvent.mouseDown DragType.hStart,
     TimelineEvent.mouseMove 100, TimelineEvent.mouseUp, TimelineEvent.click 700,
     TimelineEvent.now 12, TimelineEvent.today]
    (by decide) (by decide)

/-- C3 counterexample: in range mode with start = 10 and end = 20, a
click at 15 is equidistant from both handles; the claim requires the
tie to move the start handle (start 15, end 20), but the code moves the
end handle instead: start stays 10 and end becomes 15. -/
theorem click_tie_moves_end :
    |(15 : ℤ) - tieState.rangeStart| = |(15 : ℤ) - tieState.rangeEnd| ∧
    (handleSliderClick tieState 15).rangeStart = 10 ∧
    (handleSliderClick tieState 15).rangeEnd = 15 := by
  decide

/-- C3 amended: a click without drag sets the single handle directly in
single mode; in range mode it computes the index-distance from the click
to start and to end and moves the strictly closer handle, breaking ties
(equal distances) by moving the end handle, with the clamp policy
applied to the moved handle. -/
theorem click_nearest_handle (s : TimelineState) (v : ℤ) (hidle : s.dragState = none) :
    (s.mode = Mode.single → handleSliderClick s v = { s with singleHandle := v }) ∧
    (s.mode = Mode.range → |v - s.rangeStart| < |v - s.rangeEnd| →
      handleSliderClick s v = { s with rangeStart := max 0 (min (s.rangeEnd - 1) v) }) ∧
    (s.mode = Mode.range → |v - s.rangeEnd| ≤ |v - s.rangeStart| →
      handleSliderClick s v = { s with rangeEnd := max (s.rangeStart + 1) (min (totalHours - 1) v) }) := by
  refine ⟨fun hm => ?_, fun hm hlt => ?_, fun hm hle => ?_⟩
  · simp [handleSliderClick, hidle, hm]
  · simp [handleSliderClick, hidle, hm, hlt]
  · have hnl : ¬ (|v - s.rangeStart| < |v - s.rangeEnd|) := not_lt.mpr hle
    simp [handleSliderClick, hidle, hm, hnl]

/-- Witness for click_nearest_handle at the tie state: the end handle
moves to the clicked index. -/
theorem click_nearest_handle_witness :
    handleSliderClick tieState 15 = { tieState with rangeEnd := 15 } := by
  have h := (click_nearest_handle tieState 15 rfl).2.2 rfl (by decide)
  simpa [tieState, totalHours] using h

/-- C8: a mode switch changes only the mode field: the single handle and
both range handles are preserved exactly, so the round trips
Single -> Range -> Single and Range -> Single -> Range leave every
handle position untouched. -/
theorem mode_switch_preserves_handles (s : TimelineState) (m : Mode) :
    ((step s (TimelineEvent.switchMode m)).singleHandle = s.singleHandle ∧
     (step s (TimelineEvent.switchMode m)).rangeStart = s.rangeStart ∧
     (step s (TimelineEvent.switchMode m)).rangeEnd = s.rangeEnd) ∧
    run s [TimelineEvent.switchMode Mode.range, TimelineEvent.switchMode Mode.single] =
      { s with mode := Mode.single } ∧
    run s [TimelineEvent.switchMode Mode.single, TimelineEvent.switchMode Mode.range] =
      { s with mode := Mode.range } := by
  exact ⟨⟨rfl, rfl, rfl⟩, rfl, rfl⟩

set_option maxRecDepth 100000 in
/-- The 30 x 24 generation loop produces slot i with timestamp t0 + i,
for i in [0, 720). -/
lemma generateTimelineData_eq (t0 : ℤ) :
    generateTimelineData t0 =
      (List.range 720).map (fun i => { index := i, time := t0 + (i : ℕ) }) := by
  rfl

/-- Lookup in the generated timeline data at a valid index. -/
lemma generateTimelineData_get (t0 : ℤ) (i : ℕ) (hi : i < 720) :
    (generateTimelineData t0).get? i = some { index := i, time := t0 + (i : ℕ) } := by
  rw [generateTimelineData_eq, List.get?_map, List.get?_range hi]
  rfl

/-- C9: for any state satisfying the invariant, the committed-change
notification carries (startTime, endTime, mode): in single mode
startTime is the handle slot time t0 + handle and endTime is that time
plus exactly one hour; in range mode startTime is the start slot time
and endTime is the end slot time. -/
theorem emission_window (t0 : ℤ) (s : TimelineState) (hInv : Inv s) :
    (s.mode = Mode.single →
      emitWindow t0 s = some (t0 + s.singleHandle, t0 + s.singleHandle + 1, Mode.single)) ∧
    (s.mode = Mode.range →
      emitWindow t0 s = some (t0 + s.rangeStart, t0 + s.rangeEnd, Mode.range)) := by
  obtain ⟨h1, h2, h3, h4, h5⟩ := hInv
  simp only [totalHours] at h1 h2 h3 h4 h5
  constructor
  · intro hm
    rw [emitWindow, if_pos hm]
    rw [generateTimelineData_get t0 s.singleHandle.toNat (by omega)]
    simp [hm, Int.toNat_of_nonneg h4]
  · intro hm
    rw [emitWindow, if_neg (by simp [hm])]
    rw [generateTimelineData_get t0 s.rangeStart.toNat (by omega),
      generateTimelineData_get t0 s.rangeEnd.toNat (by omega)]
    simp [hm, Int.toNat_of_nonneg h1, Int.toNat_of_nonneg (by omega : (0 : ℤ) ≤ s.rangeEnd)]

/-- Witness for emission_window at the initial state with the clock at
hour 5: the single-mode window is one hour wide. -/
theorem emission_window_witness :
    emitWindow 0 (initState 5) = some (365, 366, Mode.single) := by
  have h := (emission_window 0 (initState 5) (by decide)).1 rfl
  simpa [initState, todayIndex] using h

end Dashboard
